import Mathlib

/-!
Verification of the sidecar agent core: the tool registry and qualified-name
namespacing scheme, the event bus, the conversation/tool-loop orchestrator
(`ChatService.chat_with_tools`), and the external MCP client manager
(`McpClientManager.connect`).  Python dicts are embedded as ordered
association lists (or as total functions with a default, where the source
only ever uses `get` with a default), asynchronous calls as explicit outcome
values, and raised exceptions as `.exn` / `Except.error` values.
-/

/-- Python dict assignment `m[k] = v`: replace in place if the key is present
(keeping its position, as CPython dicts do), otherwise append. -/
def dictSet {α : Type} (m : List (String × α)) (k : String) (v : α) :
    List (String × α) :=
  match m with
  | [] => [(k, v)]
  | (k', v') :: rest =>
      if k' = k then (k, v) :: rest else (k', v') :: dictSet rest k v

/-- Python `m.get(k)` / `m[k]`-with-check: first (only) binding for the key. -/
def dictGet {α : Type} (m : List (String × α)) (k : String) : Option α :=
  match m with
  | [] => none
  | (k', v') :: rest => if k' = k then some v' else dictGet rest k

/-- Python `m.pop(k, None)`: drop the binding for the key, if any. -/
def dictRemove {α : Type} (m : List (String × α)) (k : String) :
    List (String × α) :=
  m.filter (fun kv => !(kv.1 = k : Bool))

theorem dictGet_dictSet_same {α : Type} (m : List (String × α)) (k : String) (v : α) :
    dictGet (dictSet m k v) k = some v := by
  induction m with
  | nil => simp [dictSet, dictGet]
  | cons hd tl ih =>
      obtain ⟨k', v'⟩ := hd
      by_cases h : k' = k
      · simp [dictSet, dictGet, h]
      · simp [dictSet, dictGet, h, ih]

theorem dictGet_dictSet_other {α : Type} (m : List (String × α)) (k q : String) (v : α)
    (hq : q ≠ k) : dictGet (dictSet m k v) q = dictGet m q := by
  induction m with
  | nil => simp [dictSet, dictGet, Ne.symm hq]
  | cons hd tl ih =>
      obtain ⟨k', v'⟩ := hd
      by_cases h : k' = k
      · subst h
        simp [dictSet, dictGet, Ne.symm hq]
      · by_cases h2 : k' = q <;> simp [dictSet, dictGet, h, h2, hq, ih]

/-! ## Tool registry (src/apps/sidecar/agent/mcp/registry.py) -/

/-- Keyword arguments of a tool invocation (the `tool_input` dict),
embedded as an ordered association list of opaque JSON values. -/
abbrev ToolInput := List (String × String)

/-- `ToolDefinition` (registry.py).  The JSON input schema is carried as an
opaque serialized string.  A handler models the async local handler; its
`Except.error e` outcome models the handler raising an exception whose
string rendering is `e`, `.ok s` the returned string. -/
structure ToolDefinition where
  server : String
  name : String
  description : String
  input_schema : String
  handler : Option (ToolInput → Except String String)

/-- `ToolDefinition.qualified_name`: `f"{self.server}__{self.name}"`. -/
def ToolDefinition.qualified_name (t : ToolDefinition) : String :=
  t.server ++ "__" ++ t.name

/-- `ToolDefinition.display_name`: `f"{self.server}:{self.name}"`. -/
def ToolDefinition.display_name (t : ToolDefinition) : String :=
  t.server ++ ":" ++ t.name

/-- `ToolRegistry`: `self._tools` is a dict keyed by qualified name. -/
structure ToolRegistry where
  tools : List (String × ToolDefinition)

/-- `ToolRegistry.register`: `self._tools[tool.qualified_name] = tool`. -/
def ToolRegistry.register (r : ToolRegistry) (t : ToolDefinition) : ToolRegistry :=
  ⟨dictSet r.tools t.qualified_name t⟩

/-- `ToolRegistry.resolve`: `self._tools.get(qualified_name)`. -/
def ToolRegistry.resolve (r : ToolRegistry) (qualified_name : String) :
    Option ToolDefinition :=
  dictGet r.tools qualified_name

/-- `ToolRegistry.unregister_server`: delete every entry whose definition's
server equals the given one. -/
def ToolRegistry.unregister_server (r : ToolRegistry) (server : String) :
    ToolRegistry :=
  ⟨r.tools.filter (fun kv => !(kv.2.server = server : Bool))⟩

/-- `ToolRegistry.get_for_server`: definitions whose server matches. -/
def ToolRegistry.get_for_server (r : ToolRegistry) (server : String) :
    List ToolDefinition :=
  (r.tools.filter (fun kv => (kv.2.server = server : Bool))).map (·.2)

/-! ## Qualified-name parsing in the orchestrator (chat.py lines 258-262) -/

/-- Split a character list at the first (leftmost) occurrence of `sep`,
returning the part before and the part after; `none` when `sep` does not
occur.  This is Python's `s.split(sep, 1)` scanning behaviour. -/
def splitFirstAux (sep : List Char) : List Char → Option (List Char × List Char)
  | [] => none
  | c :: cs =>
      if sep.isPrefixOf (c :: cs) then some ([], (c :: cs).drop sep.length)
      else
        match splitFirstAux sep cs with
        | some p => some (c :: p.1, p.2)
        | none => none

/-- `parts = tool_name.split("__", 1)`; namespace `parts[0]` and local name
`parts[1]` when the separator occurs (`len(parts) == 2`), else the sentinel
`"unknown"` namespace with the whole string as local name. -/
def parse_qualified_name (tool_name : String) : String × String :=
  match splitFirstAux "__".toList tool_name.toList with
  | some p => (String.mk p.1, String.mk p.2)
  | none => ("unknown", tool_name)

/-- `display_name = f"{server}:{local_name}"` (chat.py line 262). -/
def tool_display_name (tool_name : String) : String :=
  (parse_qualified_name tool_name).1 ++ ":" ++ (parse_qualified_name tool_name).2

/-! ## Event bus (src/apps/sidecar/agent/events.py) -/

/-- The event dict built by `EventBus.emit`.  `event_id` (a fresh UUID) and
`ts` (the wall clock) are environment inputs, passed to `emit` explicitly;
`cost_usd` is an opaque optional figure (never computed with). -/
structure Event where
  event_id : String
  type : String
  ts : String
  session_id : String
  source : String
  seq : Nat
  payload : String
  cost_usd : Option Rat
deriving DecidableEq, Repr

/-- One subscriber queue.  `qid` models Python object identity (the set of
queues hashes by identity); `maxsize` is the bound given to
`asyncio.Queue(maxsize=1000)`; `buf` the queued events (`json.dumps`
serialization is elided: it is injective on event dicts). -/
structure Subscriber where
  qid : Nat
  maxsize : Nat
  buf : List Event
deriving DecidableEq, Repr

/-- `queue.put_nowait(msg)`: `none` models the `asyncio.QueueFull` raise,
which occurs exactly when `maxsize > 0` and the queue holds at least
`maxsize` items. -/
def put_nowait (q : Subscriber) (e : Event) : Option Subscriber :=
  if 0 < q.maxsize ∧ q.maxsize ≤ q.buf.length then none
  else some { q with buf := q.buf ++ [e] }

/-- `EventBus`: the subscriber set and `self._seq_counters`.  The counters
dict is only ever read through `get(session_id, 0)`, so it is embedded as a
total function with default 0. -/
structure EventBus where
  subscribers : List Subscriber
  seq_counters : String → Nat

/-- `EventBus._next_seq`: increment-and-return the per-session counter. -/
def EventBus.next_seq (b : EventBus) (session_id : String) : Nat × EventBus :=
  let n := b.seq_counters session_id + 1
  (n, { b with seq_counters := fun s => if s = session_id then n else b.seq_counters s })

/-- `EventBus.emit`: build the event, attempt `put_nowait` on every
subscriber, collect the full ones as dead and discard them, return the
event.  The embedding is total: the `QueueFull` raise is caught in the
source, so `emit` never raises and never blocks. -/
def EventBus.emit (b : EventBus) (event_type session_id source payload : String)
    (cost_usd : Option Rat) (event_id ts : String) : Event × EventBus :=
  let sb := b.next_seq session_id
  let event : Event :=
    ⟨event_id, event_type, ts, session_id, source, sb.1, payload, cost_usd⟩
  (event, { sb.2 with subscribers := sb.2.subscribers.filterMap (fun q => put_nowait q event) })

/-- One queued call to `emit` (all arguments, environment inputs included). -/
structure EmitReq where
  event_type : String
  session_id : String
  source : String
  payload : String
  cost_usd : Option Rat
  event_id : String
  ts : String

/-- Sequential emission of a list of events, returning them in order. -/
def EventBus.emitMany (b : EventBus) (reqs : List EmitReq) :
    List Event × EventBus :=
  match reqs with
  | [] => ([], b)
  | r :: rest =>
      let eb := b.emit r.event_type r.session_id r.source r.payload r.cost_usd r.event_id r.ts
      let rec_ := eb.2.emitMany rest
      (eb.1 :: rec_.1, rec_.2)

/-! ## Theorems: tool registry and qualified names -/

theorem splitFirstAux_sound (sep : List Char) :
    ∀ (cs pre post : List Char),
      splitFirstAux sep cs = some (pre, post) → cs = pre ++ sep ++ post := by
  intro cs
  induction cs with
  | nil => intro pre post h; simp [splitFirstAux] at h
  | cons c cs ih =>
      intro pre post h
      unfold splitFirstAux at h
      by_cases hp : sep.isPrefixOf (c :: cs)
      · rw [if_pos hp] at h
        obtain ⟨t, ht⟩ := (List.isPrefixOf_iff_prefix.mp hp)
        obtain ⟨h1, h2⟩ := Prod.mk.injEq _ _ _ _ ▸ Option.some.injEq _ _ ▸ h
        subst h1
        rw [← ht, List.drop_left] at h2
        simp [← ht, ← h2]
      · rw [if_neg hp] at h
        cases hs : splitFirstAux sep cs with
        | none => rw [hs] at h; simp at h
        | some p =>
            rw [hs] at h
            obtain ⟨h1, h2⟩ := Prod.mk.injEq _ _ _ _ ▸ Option.some.injEq _ _ ▸ h
            have := ih p.1 p.2 (by rw [hs])
            subst h1 h2
            simp [this]

theorem string_data_append (a b : String) :
    (a ++ b).data = a.data ++ b.data := rfl

theorem string_eq_of_data (a b : String) (h : a.data = b.data) : a = b := by
  cases a; cases b; exact congrArg String.mk h

/-- C4: the orchestrator parses a qualified tool name by splitting on the
first occurrence of "__": "builtin__shell" gives namespace "builtin" and
local name "shell" (display "builtin:shell"); "a__b__c" splits at the first
separator only; a string with no "__" occurrence, such as "shell", gives the
sentinel namespace "unknown" with the whole string as local name, and the
display name is namespace, colon, local name. -/
theorem parse_qualified_name_spec :
    parse_qualified_name "builtin__shell" = ("builtin", "shell") ∧
    tool_display_name "builtin__shell" = "builtin:shell" ∧
    parse_qualified_name "a__b__c" = ("a", "b__c") ∧
    (∀ s : String, (∀ pre post : String, s ≠ pre ++ "__" ++ post) →
      parse_qualified_name s = ("unknown", s) ∧
      tool_display_name s = "unknown" ++ ":" ++ s) := by
  refine ⟨by decide, by decide, by decide, ?_⟩
  intro s hs
  have hnone : splitFirstAux "__".toList s.toList = none := by
    cases h : splitFirstAux "__".toList s.toList with
    | none => rfl
    | some p =>
        exfalso
        have hdec := splitFirstAux_sound _ _ _ _ h
        apply hs (String.mk p.1) (String.mk p.2)
        apply string_eq_of_data
        rw [string_data_append, string_data_append]
        exact hdec
  have h1 : parse_qualified_name s = ("unknown", s) := by
    unfold parse_qualified_name
    rw [hnone]
  refine ⟨h1, ?_⟩
  unfold tool_display_name
  rw [h1]

/-- C4 witness: instantiation at the bare name "shell". -/
theorem parse_qualified_name_spec_witness :
    parse_qualified_name "shell" = ("unknown", "shell") ∧
    tool_display_name "shell" = "unknown" ++ ":" ++ "shell" := by
  refine parse_qualified_name_spec.2.2.2 "shell" ?_
  intro pre post h
  have hd := congrArg String.data h
  rw [string_data_append, string_data_append] at hd
  have hm : '_' ∈ ("shell" : String).data := by
    rw [hd]
    simp [String.data]
  revert hm
  decide

/-- C7: registering a definition (over any prior registry state, including
one already holding the same qualified name — last registration wins) makes
`resolve` of "{server}__{name}" return exactly that definition; the display
name renders as "{server}:{name}"; and `resolve` is an exact lookup: every
other key resolves exactly as it did before the registration. -/
theorem register_resolve_roundtrip (r : ToolRegistry) (d : ToolDefinition) :
    (r.register d).resolve (d.server ++ "__" ++ d.name) = some d ∧
    d.display_name = d.server ++ ":" ++ d.name ∧
    (∀ q : String, q ≠ d.server ++ "__" ++ d.name →
      (r.register d).resolve q = r.resolve q) := by
  refine ⟨?_, rfl, ?_⟩
  · show dictGet (dictSet r.tools d.qualified_name d) (d.server ++ "__" ++ d.name) = some d
    rw [show d.server ++ "__" ++ d.name = d.qualified_name from rfl]
    exact dictGet_dictSet_same r.tools d.qualified_name d
  · intro q hq
    show dictGet (dictSet r.tools d.qualified_name d) q = dictGet r.tools q
    exact dictGet_dictSet_other r.tools d.qualified_name q d hq

/-- A sample local tool definition used by concrete witnesses. -/
def sampleTool : ToolDefinition :=
  ⟨"builtin", "shell", "Run a shell command", "schema", none⟩

/-- The empty registry. -/
def emptyRegistry : ToolRegistry := ⟨[]⟩

/-- C7 witness: registering the sample tool in the empty registry and
resolving its qualified name returns it; an unrelated key stays absent. -/
theorem register_resolve_roundtrip_witness :
    (emptyRegistry.register sampleTool).resolve ("builtin" ++ "__" ++ "shell") =
      some sampleTool ∧
    sampleTool.display_name = "builtin" ++ ":" ++ "shell" ∧
    (emptyRegistry.register sampleTool).resolve "builtin__echo" =
      emptyRegistry.resolve "builtin__echo" := by
  have h := register_resolve_roundtrip emptyRegistry sampleTool
  exact ⟨h.1, h.2.1, h.2.2 "builtin__echo" (by decide)⟩

/-! ## Theorems: event bus -/

theorem emitMany_seq_general (reqs : List EmitReq) :
    ∀ (b : EventBus) (sid : String),
      ((b.emitMany reqs).1.filter (fun e => (e.session_id = sid : Bool))).map (·.seq) =
        List.range' (b.seq_counters sid + 1)
          ((reqs.filter (fun r => (r.session_id = sid : Bool))).length) := by
  induction reqs with
  | nil => intro b sid; simp [EventBus.emitMany]
  | cons r rest ih =>
      intro b sid
      by_cases h : r.session_id = sid
      · subst h
        simp [EventBus.emitMany, EventBus.emit, EventBus.next_seq, ih, List.range']
      · simp [EventBus.emitMany, EventBus.emit, EventBus.next_seq, h, Ne.symm h, ih]

/-- C5: starting from a fresh bus (any subscriber set, all counters zero),
the seq fields of the events emitted for a given session id, in emission
order, are exactly 1, 2, 3, … (no gaps, independent of event type and of
interleaved emissions for other sessions); moreover a single emission never
touches another session's counter. -/
theorem event_seq_strictly_increasing :
    (∀ (subs : List Subscriber) (reqs : List EmitReq) (sid : String),
      (((⟨subs, fun _ => 0⟩ : EventBus).emitMany reqs).1.filter
          (fun e => (e.session_id = sid : Bool))).map (·.seq) =
        List.range' 1 ((reqs.filter (fun r => (r.session_id = sid : Bool))).length)) ∧
    (∀ (b : EventBus) (et si so pl : String) (cu : Option Rat) (ei ts : String)
        (sid : String), sid ≠ si →
      (b.emit et si so pl cu ei ts).2.seq_counters sid = b.seq_counters sid) := by
  constructor
  · intro subs reqs sid
    simpa using emitMany_seq_general reqs ⟨subs, fun _ => 0⟩ sid
  · intro b et si so pl cu ei ts sid hne
    simp [EventBus.emit, EventBus.next_seq, hne]

/-- C5 witness: three emissions, two for session "a" interleaved with one
for session "b", yield seqs 1, 2 for "a"; and emitting for "a" leaves the
"b" counter untouched. -/
theorem event_seq_strictly_increasing_witness :
    (((⟨[], fun _ => 0⟩ : EventBus).emitMany
        [⟨"t1", "a", "s", "p", none, "e1", "ts1"⟩,
         ⟨"t2", "b", "s", "p", none, "e2", "ts2"⟩,
         ⟨"t3", "a", "s", "p", none, "e3", "ts3"⟩]).1.filter
        (fun e => (e.session_id = "a" : Bool))).map (·.seq) = List.range' 1 2 ∧
    ((⟨[], fun _ => 0⟩ : EventBus).emit "t1" "a" "s" "p" none "e1" "ts1").2.seq_counters "b" =
      (fun _ => 0 : String → Nat) "b" := by
  constructor
  · exact event_seq_strictly_increasing.1 []
      [⟨"t1", "a", "s", "p", none, "e1", "ts1"⟩,
       ⟨"t2", "b", "s", "p", none, "e2", "ts2"⟩,
       ⟨"t3", "a", "s", "p", none, "e3", "ts3"⟩] "a"
  · exact event_seq_strictly_increasing.2 ⟨[], fun _ => 0⟩ "t1" "a" "s" "p" none "e1" "ts1"
      "b" (by decide)

/-- Whether a queue is at full capacity (`put_nowait` would raise). -/
def Subscriber.isFull (q : Subscriber) : Prop :=
  0 < q.maxsize ∧ q.maxsize ≤ q.buf.length

instance (q : Subscriber) : Decidable q.isFull := by
  unfold Subscriber.isFull; infer_instance

/-- C6: emitting on a bus in which some subscriber's queue is full is a
total operation (the embedding returns, modelling "no raise, no block"): the
event is still built with the next seq and the counter is consumed; the full
subscriber is no longer in the active set afterwards; and every subscriber
with spare capacity still receives the event.  Subscriber identity (`qid`)
is assumed pairwise distinct, as Python queue objects are distinct. -/
theorem emit_backpressure (b : EventBus) (sub : Subscriber)
    (et si so pl : String) (cu : Option Rat) (ei ts : String)
    (hnodup : (b.subscribers.map (·.qid)).Nodup)
    (hmem : sub ∈ b.subscribers) (hfull : sub.isFull) :
    (b.emit et si so pl cu ei ts).1.seq = b.seq_counters si + 1 ∧
    (b.emit et si so pl cu ei ts).2.seq_counters si = b.seq_counters si + 1 ∧
    (∀ q' ∈ (b.emit et si so pl cu ei ts).2.subscribers, q'.qid ≠ sub.qid) ∧
    (∀ q ∈ b.subscribers, ¬ q.isFull →
      { q with buf := q.buf ++ [(b.emit et si so pl cu ei ts).1] } ∈
        (b.emit et si so pl cu ei ts).2.subscribers) := by
  refine ⟨rfl, by simp [EventBus.emit, EventBus.next_seq], ?_, ?_⟩
  · intro q' hq' heq
    simp only [EventBus.emit, EventBus.next_seq] at hq'
    obtain ⟨q, hqmem, hput⟩ := List.mem_filterMap.mp hq'
    unfold put_nowait at hput
    by_cases hf : 0 < q.maxsize ∧ q.maxsize ≤ q.buf.length
    · rw [if_pos hf] at hput; exact Option.noConfusion hput
    · rw [if_neg hf] at hput
      have hqid : q.qid = sub.qid := by
        have := Option.some.injEq _ _ ▸ hput
        calc q.qid = q'.qid := by rw [← this]
          _ = sub.qid := heq
      have hqs : q = sub :=
        List.inj_on_of_nodup_map hnodup hqmem hmem hqid
      subst hqs
      exact hf hfull
  · intro q hqmem hnf
    simp only [EventBus.emit, EventBus.next_seq]
    refine List.mem_filterMap.mpr ⟨q, hqmem, ?_⟩
    unfold put_nowait
    rw [if_neg (by exact fun hc => hnf hc)]

/-- Concrete full and empty subscribers used by the C6 witness. -/
def fullSub : Subscriber :=
  ⟨1, 1, [⟨"e0", "t", "ts", "a", "s", 1, "p", none⟩]⟩

/-- A subscriber with spare capacity for the C6 witness. -/
def spareSub : Subscriber := ⟨2, 1000, []⟩

/-- C6 witness: on a bus holding one full subscriber and one empty one,
emitting once consumes seq 1, drops the full subscriber and delivers to the
empty one. -/
theorem emit_backpressure_witness :
    ((⟨[fullSub, spareSub], fun _ => 0⟩ : EventBus).emit "t" "a" "s" "p" none "e1" "ts1").1.seq =
      0 + 1 ∧
    (∀ q' ∈ ((⟨[fullSub, spareSub], fun _ => 0⟩ : EventBus).emit "t" "a" "s" "p" none
        "e1" "ts1").2.subscribers, q'.qid ≠ fullSub.qid) ∧
    ({ spareSub with
        buf := spareSub.buf ++
          [((⟨[fullSub, spareSub], fun _ => 0⟩ : EventBus).emit "t" "a" "s" "p" none
              "e1" "ts1").1] } ∈
      ((⟨[fullSub, spareSub], fun _ => 0⟩ : EventBus).emit "t" "a" "s" "p" none
          "e1" "ts1").2.subscribers) := by
  have h := emit_backpressure ⟨[fullSub, spareSub], fun _ => 0⟩ fullSub "t" "a" "s" "p"
    none "e1" "ts1" (by decide) (by simp) (by decide)
  exact ⟨h.1, h.2.2.1, h.2.2.2 spareSub (by simp) (by decide)⟩

/-! ## Chat orchestrator (src/apps/sidecar/agent/chat.py)

Event emissions inside `chat_with_tools` are elided from the embedding: the
`event_bus` collaborator is optional, `emit`'s return value is discarded at
every call site, and `emit` never raises (see the event-bus embedding
above), so emissions cannot influence the turn's result, the conversation
history, or control flow.  Wall-clock durations (`time.monotonic`) are not
modelled; `duration_ms` is 0.  The `model`, `temperature` and
`tool_definitions` arguments are fixed for the whole invocation and are
absorbed into the provider's `chat` function. -/

/-- Message content: plain text, the provider's raw content blocks
(`response.raw_content`, opaque), Anthropic `tool_result` blocks
`(tool_use_id, content)`, or Gemini `functionResponse` parts
`(name, result)`. -/
inductive Content where
  | str (s : String)
  | rawBlocks (blocks : List String)
  | anthropicToolResults (blocks : List (String × String))
  | googleFunctionResponses (parts : List (String × String))
deriving DecidableEq, Repr

/-- `Message` (providers/base.py). -/
structure Message where
  role : String
  content : Content
deriving DecidableEq, Repr

/-- One entry of `response.tool_calls`: `{id, name, input}`. -/
structure ToolCall where
  id : String
  name : String
  input : ToolInput
deriving DecidableEq, Repr

/-- The `usage` dict; both keys may be absent (read via `.get(_, 0)`). -/
structure Usage where
  prompt_tokens : Option Nat
  completion_tokens : Option Nat
deriving DecidableEq, Repr

/-- `ChatResponse` (providers/base.py).  `tool_calls` is
`Optional[list[dict]]` in the source and only ever tested for falsiness or
iterated; `None` and `[]` behave identically there, so both are embedded as
the empty list. -/
structure ChatResponse where
  content : String
  model : String
  provider : String
  usage : Option Usage
  tool_calls : List ToolCall
  stop_reason : Option String
  raw_content : Option (List String)
deriving DecidableEq, Repr

/-- `ToolCallRecord` (chat.py). -/
structure ToolCallRecord where
  tool_call_id : String
  tool_name : String
  display_name : String
  tool_input : ToolInput
  tool_output : String
  duration_ms : Nat
  error : Option String
deriving DecidableEq, Repr

/-- `ChatResult` (chat.py). -/
structure ChatResult where
  response : ChatResponse
  tool_calls : List ToolCallRecord
  total_input_tokens : Nat
  total_output_tokens : Nat
deriving DecidableEq, Repr

/-- `Conversation` (chat.py). -/
structure Conversation where
  id : String
  messages : List Message
  provider_name : String
  model : Option String
deriving Repr

/-- Outcome of one `await provider.chat(...)`: a response, or a raised
exception rendered as its message string. -/
inductive AdapterOutcome where
  | ok (r : ChatResponse)
  | exn (e : String)
deriving DecidableEq, Repr

/-- A provider adapter as the orchestrator sees it: a name and its `chat`
operation on the accumulated message history. -/
structure Provider where
  name : String
  chat : List Message → AdapterOutcome

/-- The slice of `McpClientManager` the orchestrator consumes:
`is_connected` (membership in the connected-server set) and `call_tool`.
`call_tool` catches every exception internally (client.py lines 150-169)
and always returns a string, so it is embedded as a total function. -/
structure McpInterface where
  connected : List String
  call_tool : String → String → ToolInput → String

/-- `(response.usage or {}).get("prompt_tokens", 0)`. -/
def usage_prompt_tokens (u : Option Usage) : Nat :=
  match u with
  | some u => u.prompt_tokens.getD 0
  | none => 0

/-- `(response.usage or {}).get("completion_tokens", 0)`. -/
def usage_completion_tokens (u : Option Usage) : Nat :=
  match u with
  | some u => u.completion_tokens.getD 0
  | none => 0

/-- `response.raw_content or response.content` (Python `or`: `None` and the
empty block list are both falsy and fall through to the flattened text). -/
def raw_or_content (raw : Option (List String)) (content : String) : Content :=
  match raw with
  | some (b :: bs) => Content.rawBlocks (b :: bs)
  | some [] => Content.str content
  | none => Content.str content

/-- The assistant message appended when the response carries tool calls
(chat.py lines 236-249): Anthropic and Google keep the raw content blocks,
every other provider the flattened text. -/
def assistant_tool_message (provider_name : String) (r : ChatResponse) : Message :=
  if provider_name = "anthropic" then
    ⟨"assistant", raw_or_content r.raw_content r.content⟩
  else if provider_name = "google" then
    ⟨"assistant", raw_or_content r.raw_content r.content⟩
  else
    ⟨"assistant", Content.str r.content⟩

/-- One executed tool call: `(output, error)` (chat.py lines 271-290).
Dispatch prefers a registry-resolved definition with a handler; else a
connected external server for the parsed namespace; else the deterministic
not-found text.  A handler exception is caught and rendered. -/
def execute_tool_call (tool_registry : Option ToolRegistry)
    (mcp_client : Option McpInterface) (tc : ToolCall) : String × Option String :=
  let server := (parse_qualified_name tc.name).1
  let local_name := (parse_qualified_name tc.name).2
  match tool_registry with
  | some reg =>
      match reg.resolve tc.name with
      | some tool_def =>
          match tool_def.handler with
          | some h =>
              match h tc.input with
              | .ok out => (out, none)
              | .error e => ("Error executing tool: " ++ e, some e)
          | none =>
              match mcp_client with
              | some m =>
                  if server ∈ m.connected then
                    (m.call_tool server local_name tc.input, none)
                  else
                    ("Error: Tool '" ++ tc.name ++ "' not found or not connected",
                     some ("Error: Tool '" ++ tc.name ++ "' not found or not connected"))
              | none =>
                  ("Error: Tool '" ++ tc.name ++ "' not found or not connected",
                   some ("Error: Tool '" ++ tc.name ++ "' not found or not connected"))
      | none =>
          match mcp_client with
          | some m =>
              if server ∈ m.connected then
                (m.call_tool server local_name tc.input, none)
              else
                ("Error: Tool '" ++ tc.name ++ "' not found or not connected",
                 some ("Error: Tool '" ++ tc.name ++ "' not found or not connected"))
          | none =>
              ("Error: Tool '" ++ tc.name ++ "' not found or not connected",
               some ("Error: Tool '" ++ tc.name ++ "' not found or not connected"))
  | none => ("Error: No tool registry available", some "Error: No tool registry available")

/-- The `ToolCallRecord` appended for one executed call (chat.py 307-316). -/
def make_record (tc : ToolCall) (output : String) (error : Option String) :
    ToolCallRecord :=
  ⟨tc.id, tc.name, tool_display_name tc.name, tc.input, output, 0, error⟩

/-- One entry of `tool_results`: `(tool_id, tool_name, local_name, output)`. -/
structure ToolResultEntry where
  tool_id : String
  tool_name : String
  local_name : String
  output : String
deriving DecidableEq, Repr

/-- Execute every tool call of the iteration in request order, producing the
audit records and the `tool_results` list (chat.py lines 252-319). -/
def run_tool_calls (tool_registry : Option ToolRegistry)
    (mcp_client : Option McpInterface) (tcs : List ToolCall) :
    List ToolCallRecord × List ToolResultEntry :=
  (tcs.map fun tc =>
    let oe := execute_tool_call tool_registry mcp_client tc
    (make_record tc oe.1 oe.2,
     (⟨tc.id, tc.name, (parse_qualified_name tc.name).2, oe.1⟩ : ToolResultEntry))).unzip

/-- Feed the iteration's tool results back into history (chat.py 321-351):
Anthropic gets one user message of `tool_result` blocks; Google one
tool-role message of `functionResponse` parts; every other provider one
synthetic user message per result. -/
def feed_back_messages (provider_name : String) (results : List ToolResultEntry) :
    List Message :=
  if provider_name = "anthropic" then
    [⟨"user", Content.anthropicToolResults (results.map fun e => (e.tool_id, e.output))⟩]
  else if provider_name = "google" then
    [⟨"tool", Content.googleFunctionResponses (results.map fun e => (e.local_name, e.output))⟩]
  else
    results.map fun e =>
      ⟨"user", Content.str ("Tool result for " ++ e.tool_name ++ ":\n" ++ e.output)⟩

/-- `MAX_TOOL_TURNS = 10` (chat.py line 47): the hard-coded safety ceiling,
not configurable per call. -/
def MAX_TOOL_TURNS : Nat := 10

/-- Result of one `chat_with_tools` invocation: the returned `ChatResult`
(or the propagated exception), the conversation messages after the call,
and the trace of adapter-`chat` outcomes (one entry per invocation of the
provider's `chat`, in order). -/
structure LoopOut where
  result : Except String ChatResult
  messages : List Message
  adapter_trace : List AdapterOutcome

/-- The `for turn in range(MAX_TOOL_TURNS)` loop of `chat_with_tools`
(chat.py lines 171-359), with `fuel` iterations remaining, `last` the
response of the previous iteration (`none` before the first).  When fuel is
exhausted the last response is returned with the accumulated audit list and
token totals; the `none` case of `last` models Python's unbound `response`
variable (unreachable when the loop starts with positive fuel). -/
def chat_loop (provider : Provider) (tool_registry : Option ToolRegistry)
    (mcp_client : Option McpInterface) :
    Nat → List Message → List ToolCallRecord → Nat → Nat → Option ChatResponse → LoopOut
  | 0, msgs, acc, total_in, total_out, last =>
      match last with
      | some r => ⟨.ok ⟨r, acc, total_in, total_out⟩, msgs, []⟩
      | none => ⟨.error "NameError: name 'response' is not defined", msgs, []⟩
  | fuel + 1, msgs, acc, total_in, total_out, _ =>
      match provider.chat msgs with
      | .exn e => ⟨.error e, msgs, [.exn e]⟩
      | .ok r =>
          let ti := total_in + usage_prompt_tokens r.usage
          let to_ := total_out + usage_completion_tokens r.usage
          if r.tool_calls = [] then
            ⟨.ok ⟨r, acc, ti, to_⟩,
             msgs ++ [⟨"assistant", Content.str r.content⟩], [.ok r]⟩
          else
            let rr := run_tool_calls tool_registry mcp_client r.tool_calls
            let msgs2 := (msgs ++ [assistant_tool_message provider.name r]) ++
              feed_back_messages provider.name rr.2
            let rest := chat_loop provider tool_registry mcp_client fuel msgs2
              (acc ++ rr.1) ti to_ (some r)
            ⟨rest.result, rest.messages, .ok r :: rest.adapter_trace⟩

/-- `ChatService` state: registered providers, the conversation store, and
the default provider name. -/
structure ChatService where
  providers : List (String × Provider)
  conversations : List (String × Conversation)
  default_provider : String

/-- `ChatService.get_or_create_conversation` (no kwargs, as called from
`chat_with_tools`): fetch, or create with the default provider and empty
history and store it. -/
def ChatService.get_or_create_conversation (svc : ChatService) (cid : String) :
    Conversation × ChatService :=
  match dictGet svc.conversations cid with
  | some conv => (conv, svc)
  | none =>
      let conv : Conversation := ⟨cid, [], svc.default_provider, none⟩
      (conv, { svc with conversations := dictSet svc.conversations cid conv })

/-- `ChatService.chat_with_tools` (chat.py lines 139-359).  The user message
is appended to the conversation before the provider is resolved, so it
persists even when `get_provider` raises; the stored conversation reflects
every append the loop performed, whether the loop returned or propagated an
adapter exception.  `provider_name or conv.provider_name` is embedded as
`Option.getD` (the `None` case; an empty override string is out of scope). -/
def ChatService.chat_with_tools (svc : ChatService) (cid user_message : String)
    (provider_name : Option String) (tool_registry : Option ToolRegistry)
    (mcp_client : Option McpInterface) : LoopOut × ChatService :=
  let cs := svc.get_or_create_conversation cid
  let conv := cs.1
  let svc1 := cs.2
  let msgs0 := conv.messages ++ [⟨"user", Content.str user_message⟩]
  match dictGet svc1.providers (provider_name.getD conv.provider_name) with
  | none =>
      (⟨.error ("Provider '" ++ provider_name.getD conv.provider_name ++
          "' not registered"), msgs0, []⟩,
       { svc1 with conversations := (dictSet svc1.conversations cid
          { conv with messages := msgs0 }) })
  | some provider =>
      let out := chat_loop provider tool_registry mcp_client MAX_TOOL_TURNS msgs0 [] 0 0 none
      (out,
       { svc1 with conversations := (dictSet svc1.conversations cid
          { conv with messages := out.messages }) })

/-! ## Theorems: orchestrator -/

theorem chat_loop_no_tool_calls (provider : Provider) (reg : Option ToolRegistry)
    (mcp : Option McpInterface) (fuel : Nat) (msgs : List Message)
    (acc : List ToolCallRecord) (ti to_ : Nat) (last : Option ChatResponse)
    (r : ChatResponse) (hchat : provider.chat msgs = .ok r)
    (hno : r.tool_calls = []) :
    chat_loop provider reg mcp (fuel + 1) msgs acc ti to_ last =
      ⟨.ok ⟨r, acc, ti + usage_prompt_tokens r.usage,
          to_ + usage_completion_tokens r.usage⟩,
       msgs ++ [⟨"assistant", Content.str r.content⟩], [.ok r]⟩ := by
  simp [chat_loop, hchat, hno]

theorem chat_with_tools_eq (svc : ChatService) (cid user_message : String)
    (pname : Option String) (reg : Option ToolRegistry) (mcp : Option McpInterface)
    (provider : Provider)
    (hp : dictGet (svc.get_or_create_conversation cid).2.providers
        (pname.getD (svc.get_or_create_conversation cid).1.provider_name) =
        some provider) :
    svc.chat_with_tools cid user_message pname reg mcp =
      (chat_loop provider reg mcp MAX_TOOL_TURNS
        ((svc.get_or_create_conversation cid).1.messages ++
          [⟨"user", Content.str user_message⟩]) [] 0 0 none,
       { (svc.get_or_create_conversation cid).2 with conversations :=
          (dictSet (svc.get_or_create_conversation cid).2.conversations cid
            { (svc.get_or_create_conversation cid).1 with
              messages := (chat_loop provider reg mcp MAX_TOOL_TURNS
                ((svc.get_or_create_conversation cid).1.messages ++
                  [⟨"user", Content.str user_message⟩]) [] 0 0 none).messages }) }) := by
  simp only [ChatService.chat_with_tools, hp]

/-- C1: when the first adapter response of a `chat_with_tools` invocation
carries no tool calls, the call returns at once with an empty tool-call
audit list and token totals equal to that single call's usage figures
(each defaulting to 0 when the usage dict or key is absent), and the stored
conversation history grows by exactly one user message and one assistant
message. -/
theorem chat_no_tools_appends_two (svc : ChatService) (cid user_message : String)
    (pname : Option String) (reg : Option ToolRegistry) (mcp : Option McpInterface)
    (provider : Provider) (r : ChatResponse)
    (hp : dictGet (svc.get_or_create_conversation cid).2.providers
        (pname.getD (svc.get_or_create_conversation cid).1.provider_name) =
        some provider)
    (hchat : provider.chat ((svc.get_or_create_conversation cid).1.messages ++
        [⟨"user", Content.str user_message⟩]) = .ok r)
    (hno : r.tool_calls = []) :
    (svc.chat_with_tools cid user_message pname reg mcp).1.result =
      .ok ⟨r, [], usage_prompt_tokens r.usage, usage_completion_tokens r.usage⟩ ∧
    dictGet (svc.chat_with_tools cid user_message pname reg mcp).2.conversations cid =
      some { (svc.get_or_create_conversation cid).1 with
        messages := (svc.get_or_create_conversation cid).1.messages ++
          [⟨"user", Content.str user_message⟩, ⟨"assistant", Content.str r.content⟩] } ∧
    (svc.chat_with_tools cid user_message pname reg mcp).1.messages.length =
      (svc.get_or_create_conversation cid).1.messages.length + 2 := by
  have heq := chat_with_tools_eq svc cid user_message pname reg mcp provider hp
  have hloop := chat_loop_no_tool_calls provider reg mcp 9
    ((svc.get_or_create_conversation cid).1.messages ++
      [⟨"user", Content.str user_message⟩]) [] 0 0 none r hchat hno
  rw [show MAX_TOOL_TURNS = 9 + 1 from rfl] at heq
  rw [heq, hloop]
  refine ⟨by simp, ?_, by simp⟩
  rw [dictGet_dictSet_same]
  simp

/-- A concrete adapter response without tool calls, for witnesses. -/
def wResp : ChatResponse :=
  ⟨"hi there", "m1", "ollama", some ⟨some 3, some 5⟩, [], some "end_turn", none⟩

/-- A concrete provider that always answers `wResp`. -/
def wProvider : Provider := ⟨"ollama", fun _ => .ok wResp⟩

/-- A concrete service with that provider registered and no conversations. -/
def wSvc : ChatService := ⟨[("ollama", wProvider)], [], "ollama"⟩

/-- C1 witness: a fresh conversation, one adapter call with usage (3, 5) and
no tool calls. -/
theorem chat_no_tools_appends_two_witness :
    (wSvc.chat_with_tools "c1" "hello" none none none).1.result =
      .ok ⟨wResp, [], usage_prompt_tokens wResp.usage,
        usage_completion_tokens wResp.usage⟩ ∧
    dictGet (wSvc.chat_with_tools "c1" "hello" none none none).2.conversations "c1" =
      some { (wSvc.get_or_create_conversation "c1").1 with
        messages := (wSvc.get_or_create_conversation "c1").1.messages ++
          [⟨"user", Content.str "hello"⟩, ⟨"assistant", Content.str wResp.content⟩] } ∧
    (wSvc.chat_with_tools "c1" "hello" none none none).1.messages.length =
      (wSvc.get_or_create_conversation "c1").1.messages.length + 2 :=
  chat_no_tools_appends_two wSvc "c1" "hello" none none none wProvider wResp rfl rfl rfl

theorem run_tool_calls_fst_length (reg : Option ToolRegistry)
    (mcp : Option McpInterface) (tcs : List ToolCall) :
    (run_tool_calls reg mcp tcs).1.length = tcs.length := by
  simp [run_tool_calls, List.unzip_fst]

theorem chat_loop_trace_le (provider : Provider) (reg : Option ToolRegistry)
    (mcp : Option McpInterface) :
    ∀ (fuel : Nat) (msgs : List Message) (acc : List ToolCallRecord)
      (ti to_ : Nat) (last : Option ChatResponse),
      (chat_loop provider reg mcp fuel msgs acc ti to_ last).adapter_trace.length ≤
        fuel := by
  intro fuel
  induction fuel with
  | zero => intro msgs acc ti to_ last; cases last <;> simp [chat_loop]
  | succ n ih =>
      intro msgs acc ti to_ last
      cases hc : provider.chat msgs with
      | exn e => simp [chat_loop, hc]
      | ok r =>
          by_cases hno : r.tool_calls = []
          · simp [chat_loop, hc, hno]
          · simp only [chat_loop, hc, hno, if_false, List.length_cons]
            have := ih ((msgs ++ [assistant_tool_message provider.name r]) ++
              feed_back_messages provider.name
                (run_tool_calls reg mcp r.tool_calls).2)
              (acc ++ (run_tool_calls reg mcp r.tool_calls).1)
              (ti + usage_prompt_tokens r.usage) (to_ + usage_completion_tokens r.usage)
              (some r)
            omega

theorem chat_loop_all_tool_calls (provider : Provider) (reg : Option ToolRegistry)
    (mcp : Option McpInterface)
    (h1 : ∀ ms, ∃ r, provider.chat ms = .ok r ∧ r.tool_calls.length = 1) :
    ∀ (fuel : Nat) (msgs : List Message) (acc : List ToolCallRecord)
      (ti to_ : Nat) (last : Option ChatResponse),
      (0 < fuel ∨ ∃ l, last = some l) →
      ∃ res : ChatResult,
        (chat_loop provider reg mcp fuel msgs acc ti to_ last).result = .ok res ∧
        res.tool_calls.length = acc.length + fuel ∧
        (chat_loop provider reg mcp fuel msgs acc ti to_ last).adapter_trace.length =
          fuel ∧
        ((fuel = 0 ∧ some res.response = last) ∨
          ∃ pre, (chat_loop provider reg mcp fuel msgs acc ti to_ last).adapter_trace =
            pre ++ [.ok res.response]) := by
  intro fuel
  induction fuel with
  | zero =>
      intro msgs acc ti to_ last hnz
      rcases hnz with h | ⟨l, hl⟩
      · omega
      · subst hl
        exact ⟨⟨l, acc, ti, to_⟩, by simp [chat_loop], by simp [chat_loop],
          by simp [chat_loop], Or.inl ⟨rfl, rfl⟩⟩
  | succ n ih =>
      intro msgs acc ti to_ last _
      obtain ⟨r, hc, hlen⟩ := h1 msgs
      have hne : ¬ r.tool_calls = [] := by
        intro h; rw [h] at hlen; simp at hlen
      obtain ⟨res, hres, hreslen, htr, hdisj⟩ := ih
        ((msgs ++ [assistant_tool_message provider.name r]) ++
          feed_back_messages provider.name (run_tool_calls reg mcp r.tool_calls).2)
        (acc ++ (run_tool_calls reg mcp r.tool_calls).1)
        (ti + usage_prompt_tokens r.usage) (to_ + usage_completion_tokens r.usage)
        (some r) (Or.inr ⟨r, rfl⟩)
      refine ⟨res, ?_, ?_, ?_, ?_⟩
      · simp only [chat_loop, hc, if_neg hne]
        exact hres
      · rw [hreslen, List.length_append, run_tool_calls_fst_length, hlen]
        omega
      · simp only [chat_loop, hc, if_neg hne, List.length_cons]
        omega
      · right
        rcases hdisj with ⟨hn0, hlast⟩ | ⟨pre, hpre⟩
        · refine ⟨[], ?_⟩
          simp only [chat_loop, hc, if_neg hne]
          have htr0 : (chat_loop provider reg mcp n
              ((msgs ++ [assistant_tool_message provider.name r]) ++
                feed_back_messages provider.name (run_tool_calls reg mcp r.tool_calls).2)
              (acc ++ (run_tool_calls reg mcp r.tool_calls).1)
              (ti + usage_prompt_tokens r.usage) (to_ + usage_completion_tokens r.usage)
              (some r)).adapter_trace = [] := by
            rw [← List.length_eq_zero]
            omega
          have hr2 : res.response = r := Option.some.inj hlast
          rw [htr0, hr2]
          rfl
        · refine ⟨.ok r :: pre, ?_⟩
          simp only [chat_loop, hc, if_neg hne]
          rw [hpre]
          simp

/-- C2: one `chat_with_tools` invocation calls the provider adapter's chat
operation at most `MAX_TOOL_TURNS = 10` times (the hard-coded ceiling); and
when the resolved adapter returns exactly one tool call on every response,
the loop runs exactly 10 iterations and then returns normally (no raise)
with a result whose audit list has exactly 10 entries and whose response is
the last adapter response. -/
theorem chat_turn_ceiling (svc : ChatService) (cid um : String)
    (pname : Option String) (reg : Option ToolRegistry) (mcp : Option McpInterface) :
    (svc.chat_with_tools cid um pname reg mcp).1.adapter_trace.length ≤
      MAX_TOOL_TURNS ∧
    (∀ provider : Provider,
      dictGet (svc.get_or_create_conversation cid).2.providers
        (pname.getD (svc.get_or_create_conversation cid).1.provider_name) =
        some provider →
      (∀ ms, ∃ r, provider.chat ms = .ok r ∧ r.tool_calls.length = 1) →
      ∃ (res : ChatResult) (pre : List AdapterOutcome),
        (svc.chat_with_tools cid um pname reg mcp).1.result = .ok res ∧
        res.tool_calls.length = MAX_TOOL_TURNS ∧
        (svc.chat_with_tools cid um pname reg mcp).1.adapter_trace.length =
          MAX_TOOL_TURNS ∧
        (svc.chat_with_tools cid um pname reg mcp).1.adapter_trace =
          pre ++ [.ok res.response]) := by
  constructor
  · cases hp : dictGet (svc.get_or_create_conversation cid).2.providers
        (pname.getD (svc.get_or_create_conversation cid).1.provider_name) with
    | none =>
        simp only [ChatService.chat_with_tools, hp]
        simp
    | some provider =>
        rw [chat_with_tools_eq svc cid um pname reg mcp provider hp]
        exact chat_loop_trace_le provider reg mcp MAX_TOOL_TURNS _ _ _ _ none
  · intro provider hp h1
    rw [chat_with_tools_eq svc cid um pname reg mcp provider hp]
    obtain ⟨res, hres, hlen, htr, hdisj⟩ :=
      chat_loop_all_tool_calls provider reg mcp h1 MAX_TOOL_TURNS
        ((svc.get_or_create_conversation cid).1.messages ++
          [⟨"user", Content.str um⟩]) [] 0 0 none (Or.inl (by decide))
    rcases hdisj with ⟨h0, _⟩ | ⟨pre, hpre⟩
    · exact absurd h0 (by decide)
    · exact ⟨res, pre, hres, by simpa using hlen, htr, hpre⟩

/-- A tool call requested against an empty environment, for witnesses. -/
def wToolCall : ToolCall := ⟨"t1", "ghost__noop", []⟩

/-- A concrete adapter response that always requests one tool call. -/
def wResp2 : ChatResponse :=
  ⟨"calling a tool", "m1", "ollama", some ⟨some 3, some 5⟩, [wToolCall],
   some "tool_use", none⟩

/-- A provider that requests `wToolCall` on every chat call. -/
def wProvider2 : Provider := ⟨"ollama", fun _ => .ok wResp2⟩

/-- Service with the always-tool-calling provider registered. -/
def wSvc2 : ChatService := ⟨[("ollama", wProvider2)], [], "ollama"⟩

/-- C2 witness: driving the always-tool-calling provider runs exactly 10
iterations, returns normally, and audits exactly 10 tool calls. -/
theorem chat_turn_ceiling_witness :
    ∃ (res : ChatResult) (pre : List AdapterOutcome),
      (wSvc2.chat_with_tools "c2" "go" none none none).1.result = .ok res ∧
      res.tool_calls.length = MAX_TOOL_TURNS ∧
      (wSvc2.chat_with_tools "c2" "go" none none none).1.adapter_trace.length =
        MAX_TOOL_TURNS ∧
      (wSvc2.chat_with_tools "c2" "go" none none none).1.adapter_trace =
        pre ++ [.ok res.response] :=
  (chat_turn_ceiling wSvc2 "c2" "go" none none none).2 wProvider2 rfl
    (fun _ => ⟨wResp2, rfl, rfl⟩)

theorem string_append_assoc (a b c : String) : a ++ b ++ c = a ++ (b ++ c) :=
  string_eq_of_data _ _ (by
    rw [string_data_append, string_data_append, string_data_append,
      string_data_append, List.append_assoc])

/-- C3: a tool-level failure never aborts the turn.  (i) When the qualified
name resolves to no registry definition with a handler and its namespace is
not a connected external server, the output is a string containing
"not found" and the appended ToolCallRecord has a non-null error; (ii) when
a local handler raises, the output is "Error executing tool: …" and the
record's error is set; (iii) the loop never propagates an exception of its
own: its result is an adapter response whenever the adapter never raises. -/
theorem tool_failures_never_abort :
    (∀ (reg : ToolRegistry) (mcp : Option McpInterface) (tc : ToolCall),
      (reg.resolve tc.name).bind ToolDefinition.handler = none →
      (∀ m, mcp = some m → ¬ (parse_qualified_name tc.name).1 ∈ m.connected) →
      (∃ pre post : String,
        (execute_tool_call (some reg) mcp tc).1 = pre ++ "not found" ++ post) ∧
      (make_record tc (execute_tool_call (some reg) mcp tc).1
        (execute_tool_call (some reg) mcp tc).2).error ≠ none) ∧
    (∀ (reg : ToolRegistry) (mcp : Option McpInterface) (tc : ToolCall)
      (td : ToolDefinition) (h : ToolInput → Except String String) (e : String),
      reg.resolve tc.name = some td → td.handler = some h →
      h tc.input = .error e →
      execute_tool_call (some reg) mcp tc = ("Error executing tool: " ++ e, some e) ∧
      (make_record tc ("Error executing tool: " ++ e) (some e)).error ≠ none) ∧
    (∀ (provider : Provider) (reg : Option ToolRegistry) (mcp : Option McpInterface)
      (fuel : Nat) (msgs : List Message) (acc : List ToolCallRecord) (ti to_ : Nat)
      (last : Option ChatResponse),
      (0 < fuel ∨ ∃ l, last = some l) →
      (∀ ms e, provider.chat ms ≠ .exn e) →
      ∃ res, (chat_loop provider reg mcp fuel msgs acc ti to_ last).result =
        .ok res) := by
  refine ⟨?_, ?_, ?_⟩
  · intro reg mcp tc h1 h2
    have hout : execute_tool_call (some reg) mcp tc =
        ("Error: Tool '" ++ tc.name ++ "' not found or not connected",
         some ("Error: Tool '" ++ tc.name ++ "' not found or not connected")) := by
      cases hres : reg.resolve tc.name with
      | none =>
          cases mcp with
          | none => simp [execute_tool_call, hres]
          | some m =>
              have hmc := h2 m rfl
              simp [execute_tool_call, hres, hmc]
      | some td =>
          have hh : td.handler = none := by
            rw [hres] at h1
            simpa using h1
          cases mcp with
          | none => simp [execute_tool_call, hres, hh]
          | some m =>
              have hmc := h2 m rfl
              simp [execute_tool_call, hres, hh, hmc]
    rw [hout]
    refine ⟨⟨"Error: Tool '" ++ tc.name ++ "' ", " or not connected", ?_⟩, by
      simp [make_record]⟩
    have hsplit : ("' not found or not connected" : String) =
        "' " ++ "not found" ++ " or not connected" := by decide
    rw [hsplit]
    simp [string_append_assoc]
  · intro reg mcp tc td h e hres hh he
    constructor
    · simp [execute_tool_call, hres, hh, he]
    · simp [make_record]
  · intro provider reg mcp fuel
    induction fuel with
    | zero =>
        intro msgs acc ti to_ last hnz _
        rcases hnz with h | ⟨l, hl⟩
        · omega
        · subst hl
          exact ⟨⟨l, acc, ti, to_⟩, by simp [chat_loop]⟩
    | succ n ih =>
        intro msgs acc ti to_ last _ hnoexn
        cases hc : provider.chat msgs with
        | exn e => exact absurd hc (hnoexn msgs e)
        | ok r =>
            by_cases hno : r.tool_calls = []
            · exact ⟨⟨r, acc, ti + usage_prompt_tokens r.usage,
                to_ + usage_completion_tokens r.usage⟩, by simp [chat_loop, hc, hno]⟩
            · obtain ⟨res, hres⟩ := ih
                ((msgs ++ [assistant_tool_message provider.name r]) ++
                  feed_back_messages provider.name (run_tool_calls reg mcp r.tool_calls).2)
                (acc ++ (run_tool_calls reg mcp r.tool_calls).1)
                (ti + usage_prompt_tokens r.usage) (to_ + usage_completion_tokens r.usage)
                (some r) (Or.inr ⟨r, rfl⟩) hnoexn
              refine ⟨res, ?_⟩
              simp only [chat_loop, hc, if_neg hno]
              exact hres

/-- A local tool whose handler always raises, for the C3 witness. -/
def wBoomTool : ToolDefinition :=
  ⟨"builtin", "boom", "always raises", "schema", some (fun _ => .error "boom failed")⟩

/-- Registry holding only the raising tool. -/
def wBoomRegistry : ToolRegistry := emptyRegistry.register wBoomTool

/-- C3 witness: (i) "ghost__noop" against an empty registry and no MCP
client yields a "not found" output and an error-carrying record; (ii) the
raising handler yields the "Error executing tool: …" output; (iii) the loop
with a never-raising provider returns normally. -/
theorem tool_failures_never_abort_witness :
    ((∃ pre post : String,
        (execute_tool_call (some emptyRegistry) none ⟨"t1", "ghost__noop", []⟩).1 =
          pre ++ "not found" ++ post) ∧
      (make_record ⟨"t1", "ghost__noop", []⟩
        (execute_tool_call (some emptyRegistry) none ⟨"t1", "ghost__noop", []⟩).1
        (execute_tool_call (some emptyRegistry) none ⟨"t1", "ghost__noop", []⟩).2).error ≠
        none) ∧
    (execute_tool_call (some wBoomRegistry) none ⟨"t2", "builtin__boom", []⟩ =
      ("Error executing tool: " ++ "boom failed", some "boom failed")) ∧
    (∃ res, (chat_loop wProvider none none 10 [] [] 0 0 none).result = .ok res) := by
  refine ⟨?_, ?_, ?_⟩
  · exact tool_failures_never_abort.1 emptyRegistry none ⟨"t1", "ghost__noop", []⟩ rfl
      (fun m hm => nomatch hm)
  · exact (tool_failures_never_abort.2.1 wBoomRegistry none ⟨"t2", "builtin__boom", []⟩
      wBoomTool (fun _ => .error "boom failed") "boom failed" rfl rfl rfl).1
  · exact tool_failures_never_abort.2.2 wProvider none none 10 [] [] 0 0 none
      (Or.inl (by decide)) (fun ms e h => nomatch h)

theorem chat_loop_step_exn (provider : Provider) (reg : Option ToolRegistry)
    (mcp : Option McpInterface) (fuel : Nat) (msgs : List Message)
    (acc : List ToolCallRecord) (ti to_ : Nat) (last : Option ChatResponse)
    (e : String) (hc : provider.chat msgs = .exn e) :
    chat_loop provider reg mcp (fuel + 1) msgs acc ti to_ last =
      ⟨.error e, msgs, [.exn e]⟩ := by
  simp [chat_loop, hc]

theorem chat_loop_exn_second (provider : Provider) (reg : Option ToolRegistry)
    (mcp : Option McpInterface) (fuel : Nat) (msgs : List Message)
    (acc : List ToolCallRecord) (ti to_ : Nat) (last : Option ChatResponse)
    (r : ChatResponse) (e : String)
    (hc1 : provider.chat msgs = .ok r) (hne : r.tool_calls ≠ [])
    (hc2 : provider.chat ((msgs ++ [assistant_tool_message provider.name r]) ++
      feed_back_messages provider.name (run_tool_calls reg mcp r.tool_calls).2) =
      .exn e) :
    chat_loop provider reg mcp (fuel + 2) msgs acc ti to_ last =
      ⟨.error e,
       (msgs ++ [assistant_tool_message provider.name r]) ++
         feed_back_messages provider.name (run_tool_calls reg mcp r.tool_calls).2,
       [.ok r, .exn e]⟩ := by
  rw [show fuel + 2 = (fuel + 1) + 1 from rfl]
  have hc2' := hc2
  simp only [List.append_assoc, List.singleton_append] at hc2'
  simp [chat_loop, hc1, hne, hc2']

theorem chat_loop_messages_extend (provider : Provider) (reg : Option ToolRegistry)
    (mcp : Option McpInterface) :
    ∀ (fuel : Nat) (msgs : List Message) (acc : List ToolCallRecord)
      (ti to_ : Nat) (last : Option ChatResponse),
      ∃ suffix, (chat_loop provider reg mcp fuel msgs acc ti to_ last).messages =
        msgs ++ suffix := by
  intro fuel
  induction fuel with
  | zero =>
      intro msgs acc ti to_ last
      cases last <;> exact ⟨[], by simp [chat_loop]⟩
  | succ n ih =>
      intro msgs acc ti to_ last
      cases hc : provider.chat msgs with
      | exn e => exact ⟨[], by simp [chat_loop, hc]⟩
      | ok r =>
          by_cases hno : r.tool_calls = []
          · exact ⟨[⟨"assistant", Content.str r.content⟩], by simp [chat_loop, hc, hno]⟩
          · obtain ⟨suffix, hsuf⟩ := ih
              ((msgs ++ [assistant_tool_message provider.name r]) ++
                feed_back_messages provider.name (run_tool_calls reg mcp r.tool_calls).2)
              (acc ++ (run_tool_calls reg mcp r.tool_calls).1)
              (ti + usage_prompt_tokens r.usage) (to_ + usage_completion_tokens r.usage)
              (some r)
            refine ⟨([assistant_tool_message provider.name r] ++
              feed_back_messages provider.name (run_tool_calls reg mcp r.tool_calls).2) ++
              suffix, ?_⟩
            simp only [chat_loop, hc, if_neg hno]
            rw [hsuf]
            simp [List.append_assoc]

/-- C10: an adapter exception during any iteration propagates to the caller
(the invocation's result is that error), but the conversation store is not
rolled back: (i) whenever the result is an error, the stored conversation
still begins with the prior history plus the user message appended at the
start of the turn; (ii) an exception on the first adapter call surfaces as
the result; (iii) if the first iteration completed a tool round and the
second adapter call raises, the stored history contains exactly the user
message, the first iteration's assistant message and its fed-back tool
results. -/
theorem adapter_failure_keeps_history (svc : ChatService) (cid um : String)
    (pname : Option String) (reg : Option ToolRegistry) (mcp : Option McpInterface) :
    (∀ e, (svc.chat_with_tools cid um pname reg mcp).1.result = .error e →
      ∃ appended,
        dictGet (svc.chat_with_tools cid um pname reg mcp).2.conversations cid =
          some { (svc.get_or_create_conversation cid).1 with
            messages := ((svc.get_or_create_conversation cid).1.messages ++
              [⟨"user", Content.str um⟩]) ++ appended }) ∧
    (∀ (provider : Provider) (e : String),
      dictGet (svc.get_or_create_conversation cid).2.providers
        (pname.getD (svc.get_or_create_conversation cid).1.provider_name) =
        some provider →
      provider.chat ((svc.get_or_create_conversation cid).1.messages ++
        [⟨"user", Content.str um⟩]) = .exn e →
      (svc.chat_with_tools cid um pname reg mcp).1.result = .error e) ∧
    (∀ (provider : Provider) (r : ChatResponse) (e : String),
      dictGet (svc.get_or_create_conversation cid).2.providers
        (pname.getD (svc.get_or_create_conversation cid).1.provider_name) =
        some provider →
      provider.chat ((svc.get_or_create_conversation cid).1.messages ++
        [⟨"user", Content.str um⟩]) = .ok r →
      r.tool_calls ≠ [] →
      provider.chat ((((svc.get_or_create_conversation cid).1.messages ++
        [⟨"user", Content.str um⟩]) ++ [assistant_tool_message provider.name r]) ++
        feed_back_messages provider.name (run_tool_calls reg mcp r.tool_calls).2) =
        .exn e →
      (svc.chat_with_tools cid um pname reg mcp).1.result = .error e ∧
      dictGet (svc.chat_with_tools cid um pname reg mcp).2.conversations cid =
        some { (svc.get_or_create_conversation cid).1 with
          messages := ((((svc.get_or_create_conversation cid).1.messages ++
            [⟨"user", Content.str um⟩]) ++ [assistant_tool_message provider.name r]) ++
            feed_back_messages provider.name (run_tool_calls reg mcp r.tool_calls).2) }) := by
  refine ⟨?_, ?_, ?_⟩
  · intro e _
    cases hp : dictGet (svc.get_or_create_conversation cid).2.providers
        (pname.getD (svc.get_or_create_conversation cid).1.provider_name) with
    | none =>
        refine ⟨[], ?_⟩
        simp only [ChatService.chat_with_tools, hp]
        rw [dictGet_dictSet_same]
        simp
    | some provider =>
        obtain ⟨suffix, hsuf⟩ := chat_loop_messages_extend provider reg mcp
          MAX_TOOL_TURNS ((svc.get_or_create_conversation cid).1.messages ++
            [⟨"user", Content.str um⟩]) [] 0 0 none
        refine ⟨suffix, ?_⟩
        rw [chat_with_tools_eq svc cid um pname reg mcp provider hp]
        simp only
        rw [dictGet_dictSet_same, hsuf]
  · intro provider e hp hc
    rw [chat_with_tools_eq svc cid um pname reg mcp provider hp]
    rw [show MAX_TOOL_TURNS = 9 + 1 from rfl,
      chat_loop_step_exn provider reg mcp 9 _ _ _ _ _ e hc]
  · intro provider r e hp hc1 hne hc2
    rw [chat_with_tools_eq svc cid um pname reg mcp provider hp]
    rw [show MAX_TOOL_TURNS = 8 + 2 from rfl,
      chat_loop_exn_second provider reg mcp 8 _ _ _ _ _ r e hc1 hne hc2]
    exact ⟨rfl, by rw [dictGet_dictSet_same]⟩

/-- A provider that requests a tool on the first call of a fresh
conversation, then raises on the next call. -/
def wProvider3 : Provider :=
  ⟨"ollama", fun ms => if ms.length ≤ 1 then .ok wResp2 else .exn "network down"⟩

/-- Service with the raise-on-second-call provider registered. -/
def wSvc3 : ChatService := ⟨[("ollama", wProvider3)], [], "ollama"⟩

/-- C10 witness: the second adapter call raises; the error propagates and
the stored history keeps the user message, the first assistant message and
the fed-back tool result. -/
theorem adapter_failure_keeps_history_witness :
    (wSvc3.chat_with_tools "c10" "go" none none none).1.result =
      .error "network down" ∧
    dictGet (wSvc3.chat_with_tools "c10" "go" none none none).2.conversations "c10" =
      some { (wSvc3.get_or_create_conversation "c10").1 with
        messages := ((((wSvc3.get_or_create_conversation "c10").1.messages ++
          [⟨"user", Content.str "go"⟩]) ++
          [assistant_tool_message wProvider3.name wResp2]) ++
          feed_back_messages wProvider3.name
            (run_tool_calls none none wResp2.tool_calls).2) } :=
  (adapter_failure_keeps_history wSvc3 "c10" "go" none none none).2.2 wProvider3 wResp2
    "network down" rfl rfl (by decide) rfl

/-! ## MCP client manager (src/apps/sidecar/agent/mcp/client.py)

`connect` interacts with the outside world at three points: spawning the
subprocess, the `initialize` round trip, and the `tools/list` round trip.
Each is an environment input (`RpcStep`): `.exn e` models that step raising
an exception rendered as `e` (spawn failure, timeout, connection closed, a
JSON-RPC error response, …).  A fourth failure source is internal: the
registration loop reads `tool["name"]` from each discovered entry, which
raises `KeyError` when the key is absent — after the earlier entries were
already registered.  The JSON-RPC messages written to the child's stdin are
returned as a trace; `print` logging and wall-clock time are elided. -/

/-- `McpServerConfig` (client.py). -/
structure McpServerConfig where
  name : String
  transport : String
  command : Option String
  args : List String
  url : Option String
  env : List (String × String)
deriving Repr

/-- One entry of the `tools/list` result: `{name?, description?, inputSchema?}`.
The source reads `tool["name"]` (KeyError when absent) but
`tool.get("description", "")` and `tool.get("inputSchema", …)` with
defaults, so only `name` can make registration raise. -/
structure McpToolInfo where
  name : Option String
  description : Option String
  inputSchema : Option String
deriving DecidableEq, Repr

/-- `McpConnection` (client.py): config, whether a process handle is held,
the discovered tools, and the request-id counter. -/
structure McpConnection where
  config : McpServerConfig
  has_process : Bool
  tools : List McpToolInfo
  request_id : Nat
deriving Repr

/-- Outcome of one environment interaction: success with a value, or a
raised exception rendered as its message string. -/
inductive RpcStep (α : Type) where
  | ok (a : α)
  | exn (e : String)
deriving Repr

/-- The environment a single `connect` call runs against: the spawn, the
initialize round trip, and the tools/list round trip. -/
structure ConnectEnv where
  spawn : RpcStep Unit
  init_roundtrip : RpcStep Unit
  tools_list : RpcStep (Option (List McpToolInfo))

/-- The params object of a JSON-RPC message written by the manager. -/
inductive RpcParams where
  | emptyObj
  | initializeParams (protocolVersion clientName clientVersion : String)
  | toolsCallParams (name : String) (arguments : ToolInput)
deriving DecidableEq, Repr

/-- A line-delimited JSON-RPC message written to the child's stdin.
Requests carry `id = some n` (`_send_jsonrpc`); notifications carry
`id = none` (`_send_notification` builds no `id` field). -/
structure JsonRpcMessage where
  jsonrpc : String
  id : Option Nat
  method : String
  params : RpcParams
deriving DecidableEq, Repr

/-- `McpClientManager` state: the shared registry and `self._connections`. -/
structure McpClientManager where
  registry : ToolRegistry
  connections : List (String × McpConnection)

/-- `McpClientManager.disconnect`: pop the connection (process teardown is
best-effort and swallowed) and sweep the server's registry entries. -/
def McpClientManager.disconnect (m : McpClientManager) (name : String) :
    McpClientManager :=
  ⟨m.registry.unregister_server name, dictRemove m.connections name⟩

/-- The default input schema substituted when a discovered tool carries no
`inputSchema`: `{"type": "object", "properties": {}}`. -/
def default_input_schema : String :=
  "\x7b\"type\": \"object\", \"properties\": \x7b\x7d\x7d"

/-- Result of `connect`: the returned status dict, the new manager state,
the JSON-RPC messages written (in order; a failing round trip still issued
its request), and whether the failure path killed a spawned process. -/
structure ConnectOut where
  result : Except String (List String)
  state : McpClientManager
  writes : List JsonRpcMessage
  killed : Bool

/-- The `initialize` request written by `connect` (id 1 on a fresh
connection counter). -/
def initializeMsg : JsonRpcMessage :=
  ⟨"2.0", some 1, "initialize", .initializeParams "2024-11-05" "ai-studio" "0.1.0"⟩

/-- The `initialized` notification written by `connect`: no id, method
"notifications/initialized", empty object params. -/
def initializedNotification : JsonRpcMessage :=
  ⟨"2.0", none, "notifications/initialized", .emptyObj⟩

/-- The `tools/list` request written by `connect` (id 2). -/
def toolsListMsg : JsonRpcMessage := ⟨"2.0", some 2, "tools/list", .emptyObj⟩

/-- The registration loop of `connect` (client.py lines 108-115): register
each discovered tool in order.  `tool["name"]` on an entry without a
"name" key raises `KeyError('name')` (rendered by `str(e)` as "'name'"),
aborting the loop — the registrations already performed are NOT unwound.
Returns the registry after the loop and the exception, if any. -/
def register_discovered (server : String) :
    ToolRegistry → List McpToolInfo → ToolRegistry × Option String
  | reg, [] => (reg, none)
  | reg, t :: ts =>
      match t.name with
      | none => (reg, some "'name'")
      | some n =>
          register_discovered server
            (reg.register ⟨server, n, t.description.getD "",
              t.inputSchema.getD default_input_schema, none⟩) ts

/-- `McpClientManager.connect` (client.py lines 60-129).  Input validation
first (unsupported transport, missing command — no process spawned); then
replace any existing connection via `disconnect`; then spawn, handshake
(`initialize` request + `initialized` notification), discover via
`tools/list` and register every discovered tool under the server's
namespace with no handler.  Any exception in the spawn / handshake /
discovery / registration steps is caught: the connection record (stored
right after the spawn) is popped, the process killed, and a structured
error returned — the registry is NOT swept in this cleanup path, so tools
registered before a mid-registration `KeyError` remain. -/
def McpClientManager.connect (m : McpClientManager) (config : McpServerConfig)
    (env : ConnectEnv) : ConnectOut :=
  if config.transport ≠ "stdio" then
    ⟨.error ("Transport '" ++ config.transport ++ "' not yet supported (Phase 2)"),
     m, [], false⟩
  else if config.command = none then
    ⟨.error "No command specified for stdio transport", m, [], false⟩
  else
    let m1 := if (dictGet m.connections config.name).isSome
      then m.disconnect config.name else m
    match env.spawn with
    | .exn e =>
        -- create_subprocess_exec raised before the record was stored; the
        -- cleanup's pop finds nothing
        ⟨.error e, m1, [], false⟩
    | .ok _ =>
        let conn : McpConnection := ⟨config, true, [], 0⟩
        let m2 : McpClientManager :=
          ⟨m1.registry, dictSet m1.connections config.name conn⟩
        match env.init_roundtrip with
        | .exn e =>
            ⟨.error e, ⟨m2.registry, dictRemove m2.connections config.name⟩,
             [initializeMsg], true⟩
        | .ok _ =>
            match env.tools_list with
            | .exn e =>
                ⟨.error e, ⟨m2.registry, dictRemove m2.connections config.name⟩,
                 [initializeMsg, initializedNotification, toolsListMsg], true⟩
            | .ok tools_opt =>
                let tools := tools_opt.getD []
                let rr := register_discovered config.name m2.registry tools
                match rr.2 with
                | some e =>
                    -- KeyError mid-registration: the except path pops the
                    -- connection and kills the process but never sweeps the
                    -- registry, so `rr.1` keeps the prefix registered so far
                    ⟨.error e, ⟨rr.1, dictRemove m2.connections config.name⟩,
                     [initializeMsg, initializedNotification, toolsListMsg], true⟩
                | none =>
                    -- every entry had a name, so the comprehension
                    -- `[t["name"] for t in tools]` is the filterMap below
                    let conn2 : McpConnection := ⟨config, true, tools, 2⟩
                    ⟨.ok (tools.filterMap McpToolInfo.name),
                     ⟨rr.1, dictSet m2.connections config.name conn2⟩,
                     [initializeMsg, initializedNotification, toolsListMsg], false⟩

/-! ## Theorems: MCP client manager -/

theorem dictGet_dictRemove_same {α : Type} (m : List (String × α)) (k : String) :
    dictGet (dictRemove m k) k = none := by
  induction m with
  | nil => rfl
  | cons hd tl ih =>
      obtain ⟨k', v'⟩ := hd
      by_cases h : k' = k
      · simpa [dictRemove, List.filter_cons, h] using ih
      · simp only [dictRemove, List.filter_cons, h] at ih ⊢
        simpa [dictGet, h] using ih

theorem get_for_server_unregister (r : ToolRegistry) (s : String) :
    (r.unregister_server s).get_for_server s = [] := by
  unfold ToolRegistry.unregister_server ToolRegistry.get_for_server
  induction r.tools with
  | nil => rfl
  | cons hd tl ih =>
      by_cases h : hd.2.server = s
      · simp only [List.filter_cons, h] at ih ⊢
        simp [ih]
      · simp only [List.filter_cons, h] at ih ⊢
        simp [h, ih]

/-- At least one of the spawn / initialize / tools-list steps raises. -/
def connect_env_fails (env : ConnectEnv) : Prop :=
  (∃ e, env.spawn = .exn e) ∨ (∃ e, env.init_roundtrip = .exn e) ∨
    (∃ e, env.tools_list = .exn e)

/-- A stdio server config used by MCP witnesses. -/
def wConfig : McpServerConfig := ⟨"ghost", "stdio", some "ghost-cmd", [], none, []⟩

/-- An empty manager (fresh registry, no connections). -/
def wMgr : McpClientManager := ⟨emptyRegistry, []⟩

/-- Environment where the child exits before answering `initialize`. -/
def wEnvInitFail : ConnectEnv :=
  ⟨.ok (), .exn "MCP server 'ghost' closed connection", .ok none⟩

/-- Environment whose tools/list result's second entry lacks a "name" key. -/
def wEnvBadTool : ConnectEnv :=
  ⟨.ok (), .ok (),
   .ok (some [⟨some "good", none, none⟩, ⟨none, some "nameless", none⟩])⟩

/-- A manager whose registry already holds the builtin shell tool (the
startup state of the shared registry), with no connection records. -/
def wBuiltinMgr : McpClientManager := ⟨emptyRegistry.register sampleTool, []⟩

/-- A config targeting the pre-populated "builtin" namespace. -/
def wBuiltinConfig : McpServerConfig := ⟨"builtin", "stdio", some "cmd", [], none, []⟩

/-- Environment where the spawn itself fails. -/
def wEnvSpawnFail : ConnectEnv := ⟨.exn "spawn failed", .ok (), .ok none⟩

/-- C8 counterexample: two concrete refutations of "a failing connect
leaves zero tool definitions under that server's namespace".  (i) The
tools/list round trip succeeds but the second entry lacks a "name" key: the
registration loop raises KeyError after registering "good"; connect returns
the structured error, the name is left disconnected, yet "ghost__good"
stays registered.  (ii) Connecting the name "builtin", whose namespace
already holds a startup tool and which has no connection record, fails at
spawn: the error is returned but the pre-existing definition remains. -/
theorem connect_failure_cleanup_counterexample :
    ((wMgr.connect wConfig wEnvBadTool).result = .error "'name'" ∧
      dictGet (wMgr.connect wConfig wEnvBadTool).state.connections "ghost" = none ∧
      ((wMgr.connect wConfig wEnvBadTool).state.registry.get_for_server "ghost").map
        (fun d => d.name) = ["good"]) ∧
    ((wBuiltinMgr.connect wBuiltinConfig wEnvSpawnFail).result =
        .error "spawn failed" ∧
      ((wBuiltinMgr.connect wBuiltinConfig wEnvSpawnFail).state.registry.get_for_server
        "builtin").map (fun d => d.name) = ["shell"]) :=
  ⟨⟨rfl, rfl, rfl⟩, rfl, rfl⟩

theorem register_discovered_fails (server : String) :
    ∀ (reg : ToolRegistry) (ts : List McpToolInfo),
      ts.any (fun t => t.name.isNone) = true →
      (register_discovered server reg ts).2 = some "'name'" := by
  intro reg ts
  induction ts generalizing reg with
  | nil => intro h; simp at h
  | cons t ts ih =>
      intro h
      cases hn : t.name with
      | none => simp [register_discovered, hn]
      | some n =>
          have h2 : ts.any (fun t => t.name.isNone) = true := by
            simpa [List.any_cons, hn] using h
          simp [register_discovered, hn, ih _ h2]

/-- C8 (amended): a stdio `connect` with a command never raises: any
failure returns a structured error dict, removes the connection record (the
name is left disconnected) and kills the spawned process — but the cleanup
path never sweeps the registry.  (i) When a spawn / initialize / tools-list
step fails, the registry is left exactly as it stood after the optional
replacement disconnect: pre-existing definitions under the namespace
survive, and zero remain only when none were present or the name was
previously connected.  (ii) When registration of the discovered tools fails
midway (an entry without a "name" key), the tools registered before the
faulty entry stay in the registry. -/
theorem connect_failure_structured (m : McpClientManager)
    (config : McpServerConfig) (env : ConnectEnv)
    (htr : config.transport = "stdio") (hcmd : config.command ≠ none) :
    (connect_env_fails env →
      (∃ e, (m.connect config env).result = .error e) ∧
      dictGet (m.connect config env).state.connections config.name = none ∧
      (m.connect config env).state.registry =
        (if (dictGet m.connections config.name).isSome
          then m.registry.unregister_server config.name else m.registry) ∧
      (env.spawn = .ok () → (m.connect config env).killed = true)) ∧
    (∀ ts, env.spawn = .ok () → env.init_roundtrip = .ok () →
      env.tools_list = .ok ts →
      (ts.getD []).any (fun t => t.name.isNone) = true →
      (∃ e, (m.connect config env).result = .error e) ∧
      dictGet (m.connect config env).state.connections config.name = none ∧
      (m.connect config env).killed = true ∧
      (m.connect config env).state.registry =
        (register_discovered config.name
          (if (dictGet m.connections config.name).isSome
            then m.registry.unregister_server config.name else m.registry)
          (ts.getD [])).1) := by
  have hregif : (if (dictGet m.connections config.name).isSome
      then m.disconnect config.name else m).registry =
      (if (dictGet m.connections config.name).isSome
        then m.registry.unregister_server config.name else m.registry) := by
    cases hg : dictGet m.connections config.name with
    | none => simp [hg]
    | some c => simp [hg, McpClientManager.disconnect]
  have hconn1 : dictGet (if (dictGet m.connections config.name).isSome
      then m.disconnect config.name else m).connections config.name = none := by
    cases hg : dictGet m.connections config.name with
    | none => simp [hg]
    | some c => simp [hg, McpClientManager.disconnect, dictGet_dictRemove_same]
  constructor
  · intro hfail
    unfold McpClientManager.connect
    rw [if_neg (by simp [htr]), if_neg (by simpa using hcmd)]
    cases hsp : env.spawn with
    | exn e => exact ⟨⟨e, rfl⟩, hconn1, hregif, fun hok => RpcStep.noConfusion hok⟩
    | ok u =>
        cases hinit : env.init_roundtrip with
        | exn e => exact ⟨⟨e, rfl⟩, dictGet_dictRemove_same _ _, hregif, fun _ => rfl⟩
        | ok v =>
            cases htools : env.tools_list with
            | exn e =>
                exact ⟨⟨e, rfl⟩, dictGet_dictRemove_same _ _, hregif, fun _ => rfl⟩
            | ok tools_opt =>
                exfalso
                rcases hfail with ⟨e, he⟩ | ⟨e, he⟩ | ⟨e, he⟩
                · rw [hsp] at he; exact RpcStep.noConfusion he
                · rw [hinit] at he; exact RpcStep.noConfusion he
                · rw [htools] at he; exact RpcStep.noConfusion he
  · intro ts hsp hinit htools hbad
    have hfail2 := register_discovered_fails config.name
      (if (dictGet m.connections config.name).isSome
        then m.disconnect config.name else m).registry (ts.getD []) hbad
    unfold McpClientManager.connect
    rw [if_neg (by simp [htr]), if_neg (by simpa using hcmd), hsp, hinit, htools]
    dsimp only
    rw [hfail2]
    exact ⟨⟨"'name'", rfl⟩, dictGet_dictRemove_same _ _, rfl,
      by rw [hregif]⟩

/-- C8 witness (for the amended claim): part (i) at the handshake-failure
environment — the registry equation shows nothing was added or swept; part
(ii) at the nameless-tool environment — the registered prefix remains. -/
theorem connect_failure_structured_witness :
    ((∃ e, (wMgr.connect wConfig wEnvInitFail).result = .error e) ∧
      dictGet (wMgr.connect wConfig wEnvInitFail).state.connections "ghost" = none ∧
      (wMgr.connect wConfig wEnvInitFail).state.registry =
        (if (dictGet wMgr.connections "ghost").isSome
          then wMgr.registry.unregister_server "ghost" else wMgr.registry) ∧
      (wEnvInitFail.spawn = .ok () →
        (wMgr.connect wConfig wEnvInitFail).killed = true)) ∧
    ((∃ e, (wMgr.connect wConfig wEnvBadTool).result = .error e) ∧
      dictGet (wMgr.connect wConfig wEnvBadTool).state.connections "ghost" = none ∧
      (wMgr.connect wConfig wEnvBadTool).killed = true ∧
      (wMgr.connect wConfig wEnvBadTool).state.registry =
        (register_discovered "ghost"
          (if (dictGet wMgr.connections "ghost").isSome
            then wMgr.registry.unregister_server "ghost" else wMgr.registry)
          [⟨some "good", none, none⟩, ⟨none, some "nameless", none⟩]).1) := by
  constructor
  · exact (connect_failure_structured wMgr wConfig wEnvInitFail rfl
      (by simp [wConfig])).1
      (Or.inr (Or.inl ⟨"MCP server 'ghost' closed connection", rfl⟩))
  · exact (connect_failure_structured wMgr wConfig wEnvBadTool rfl
      (by simp [wConfig])).2
      (some [⟨some "good", none, none⟩, ⟨none, some "nameless", none⟩])
      rfl rfl rfl (by decide)

/-- Environment for a fully successful connect discovering one tool. -/
def wEnvOk : ConnectEnv := ⟨.ok (), .ok (), .ok (some [⟨some "noop", none, none⟩])⟩

/-- C9 counterexample: on a concrete successful connect, exactly one
notification (id-less message) is written, and its method field is the
string "notifications/initialized" — not "initialized" as the claim
states. -/
theorem initialized_notification_method_counterexample :
    ((wMgr.connect wConfig wEnvOk).writes.filter (fun w => w.id.isNone)).map
        (fun w => w.method) = ["notifications/initialized"] ∧
    ¬ ((wMgr.connect wConfig wEnvOk).writes.filter (fun w => w.id.isNone)).map
        (fun w => w.method) = ["initialized"] := by
  constructor
  · decide
  · decide

/-- C9 (amended): during every successful connect handshake the manager
writes exactly one fire-and-forget JSON-RPC notification — after the
initialize request and before the tools/list request — whose method field
is the string "notifications/initialized", with empty object params and no
id field (carrying no id, no reply is ever correlated to it). -/
theorem connect_sends_initialized_notification (m : McpClientManager)
    (config : McpServerConfig) (env : ConnectEnv)
    (htr : config.transport = "stdio") (hcmd : config.command ≠ none)
    (hsp : env.spawn = .ok ()) (hinit : env.init_roundtrip = .ok ())
    (htools : ∃ ts, env.tools_list = .ok ts) :
    (m.connect config env).writes =
      [initializeMsg, initializedNotification, toolsListMsg] ∧
    ((m.connect config env).writes.filter (fun w => w.id.isNone)) =
      [initializedNotification] ∧
    initializedNotification.method = "notifications/initialized" ∧
    initializedNotification.params = .emptyObj ∧
    initializedNotification.id = none := by
  obtain ⟨ts, hts⟩ := htools
  have hW : (m.connect config env).writes =
      [initializeMsg, initializedNotification, toolsListMsg] := by
    unfold McpClientManager.connect
    rw [if_neg (by simp [htr]), if_neg (by simpa using hcmd), hsp, hinit, hts]
    dsimp only
    cases (register_discovered config.name
        (if (dictGet m.connections config.name).isSome
          then m.disconnect config.name else m).registry (ts.getD [])).2 with
    | none => rfl
    | some e => rfl
  refine ⟨hW, ?_, rfl, rfl, rfl⟩
  rw [hW]
  decide

/-- C9 witness (for the amended claim): instantiation at the concrete
successful environment. -/
theorem connect_sends_initialized_notification_witness :
    (wMgr.connect wConfig wEnvOk).writes =
      [initializeMsg, initializedNotification, toolsListMsg] ∧
    ((wMgr.connect wConfig wEnvOk).writes.filter (fun w => w.id.isNone)) =
      [initializedNotification] ∧
    initializedNotification.method = "notifications/initialized" ∧
    initializedNotification.params = .emptyObj ∧
    initializedNotification.id = none :=
  connect_sends_initialized_notification wMgr wConfig wEnvOk rfl (by simp [wConfig])
    rfl rfl ⟨some [⟨some "noop", none, none⟩], rfl⟩
